/-
Verification of the order-parameter validation and normalization core of a
Binance-futures trading bot (`bot.py`).

Modelling choices (shallow embedding):
- Python floats that hold user quantities, prices and filter bounds are modelled
  as exact rationals (ℚ).  The code converts each float to `Decimal(str(x))`
  before arithmetic, so the value actually manipulated is the decimal literal the
  float prints as; we work with that exact value.
- A decimal literal (as produced by `Decimal(str(x))`) is a pair of an integer
  mantissa and a decimal exponent, `DecNum`.  `Decimal.quantize(d, ROUND_DOWN)`
  rounds at the exponent of `d`, truncating toward zero; `snapDown` below is that
  operation.
- The symbol-filter lookup (`get_symbol_info` plus the scan of the `filters`
  list) either raises, finds no filter of the wanted type, or yields the filter;
  we model its outcome as `Except String (Option _)`.
- The exchange client is an external collaborator; the order builders are
  modelled up to the parameter set they hand to it (`OrderParams`).
-/
import Mathlib

/-- A decimal literal: mantissa `m` and number of decimal places `e`,
denoting `m / 10 ^ e`.  This is how `Decimal(str(step_size))` represents the
step: `quantize` uses only the exponent `e`. -/
structure DecNum where
  m : ℤ
  e : ℕ
deriving Repr, DecidableEq

/-- The rational value a decimal literal denotes. -/
def DecNum.val (d : DecNum) : ℚ := (d.m : ℚ) / 10 ^ d.e

/-- Truncation of a rational toward zero, the semantics of Python's
`ROUND_DOWN` rounding mode. -/
def truncQ (x : ℚ) : ℤ := if 0 ≤ x then ⌊x⌋ else -⌊-x⌋

/-- `Decimal.quantize(Decimal(str(step)), ROUND_DOWN)`: keep `e` decimal
places of `x`, truncating toward zero. -/
def snapDown (x : ℚ) (e : ℕ) : ℚ := (truncQ (x * 10 ^ e) : ℚ) / 10 ^ e

theorem truncQ_intCast (n : ℤ) : truncQ (n : ℚ) = n := by
  unfold truncQ
  split
  · exact Int.floor_intCast n
  · rw [← Int.cast_neg, Int.floor_intCast]
    omega

theorem truncQ_eq_floor (x : ℚ) (hx : 0 ≤ x) : truncQ x = ⌊x⌋ := by
  unfold truncQ
  rw [if_pos hx]

theorem snapDown_le (x : ℚ) (e : ℕ) (hx : 0 ≤ x) : snapDown x e ≤ x := by
  unfold snapDown
  have hp : (0 : ℚ) < 10 ^ e := by positivity
  rw [div_le_iff₀ hp, truncQ_eq_floor _ (by positivity)]
  exact Int.floor_le _

theorem sub_snapDown_lt (x : ℚ) (e : ℕ) (hx : 0 ≤ x) :
    x - snapDown x e < 1 / 10 ^ e := by
  unfold snapDown
  have hp : (0 : ℚ) < 10 ^ e := by positivity
  rw [truncQ_eq_floor _ (by positivity), sub_lt_iff_lt_add, div_add_div_same,
    lt_div_iff₀ hp]
  have h := Int.lt_floor_add_one (x * 10 ^ e)
  linarith

theorem snapDown_is_grid_multiple (x : ℚ) (e : ℕ) :
    ∃ k : ℤ, snapDown x e = (k : ℚ) * (1 / 10 ^ e) := by
  refine ⟨truncQ (x * 10 ^ e), ?_⟩
  unfold snapDown
  rw [mul_one_div]

theorem snapDown_fixed (x : ℚ) (e : ℕ) (k : ℤ) (hk : x * 10 ^ e = (k : ℚ)) :
    snapDown x e = x := by
  unfold snapDown
  have hp : (10 : ℚ) ^ e ≠ 0 := by positivity
  rw [hk, truncQ_intCast, ← hk, mul_div_assoc, div_self hp, mul_one]

/-- Result triple of `_validate_quantity` / `_validate_price`:
`(is_valid, message, adjusted_value)`. -/
structure NormalizationResult where
  ok : Bool
  message : String
  adjustedValue : ℚ
deriving Repr, DecidableEq

/-- The `LOT_SIZE` filter of a symbol: `minQty`, `maxQty`, `stepSize`. -/
structure LotFilter where
  minQty : ℚ
  maxQty : ℚ
  stepSize : DecNum
deriving Repr, DecidableEq

/-- The `PRICE_FILTER` of a symbol: `minPrice`, `maxPrice`, `tickSize`. -/
structure PriceFilter where
  minPrice : ℚ
  maxPrice : ℚ
  tickSize : DecNum
deriving Repr, DecidableEq

/-- `BasicBot._validate_quantity`.  The first argument is the outcome of
inspecting the symbol metadata: an exception (`Except.error`), no `LOT_SIZE`
filter found (`Except.ok none`), or the filter (`Except.ok (some f)`). -/
def validateQuantity (inspect : Except String (Option LotFilter)) (quantity : ℚ) :
    NormalizationResult :=
  match inspect with
  | Except.error _ => ⟨true, "Validation skipped", quantity⟩
  | Except.ok none => ⟨true, "No LOT_SIZE filter found", quantity⟩
  | Except.ok (some f) =>
    if quantity < f.minQty then
      ⟨false, "Quantity " ++ toString quantity ++ " below minimum " ++ toString f.minQty,
        quantity⟩
    else if quantity > f.maxQty then
      ⟨false, "Quantity " ++ toString quantity ++ " above maximum " ++ toString f.maxQty,
        quantity⟩
    else
      ⟨true, "Valid", snapDown quantity f.stepSize.e⟩

/-- `BasicBot._validate_price`.  Same shape as `validateQuantity`, but the
upper bound is only enforced when `maxPrice > 0` (exchange sentinel for
"no upper bound"). -/
def validatePrice (inspect : Except String (Option PriceFilter)) (price : ℚ) :
    NormalizationResult :=
  match inspect with
  | Except.error _ => ⟨true, "Validation skipped", price⟩
  | Except.ok none => ⟨true, "No PRICE_FILTER found", price⟩
  | Except.ok (some f) =>
    if price < f.minPrice then
      ⟨false, "Price " ++ toString price ++ " below minimum " ++ toString f.minPrice,
        price⟩
    else if f.maxPrice > 0 ∧ price > f.maxPrice then
      ⟨false, "Price " ++ toString price ++ " above maximum " ++ toString f.maxPrice,
        price⟩
    else
      ⟨true, "Valid", snapDown price f.tickSize.e⟩

/-- Worked example of the spec: `lotSize={min:0.001,max:1000,step:0.001}`,
input quantity `0.0019`, adjusted `0.001`. -/
theorem spec_worked_example_lot :
    validateQuantity (Except.ok (some ⟨1/1000, 1000, ⟨1, 3⟩⟩)) (19/10000) =
      ⟨true, "Valid", 1/1000⟩ := by
  norm_num [validateQuantity, snapDown, truncQ]

/-- Worked example of the spec: `priceFilter={min:100,max:0,tick:0.1}`, input
price `123.456`, adjusted `123.4`, `ok=true` (no upper bound since max=0). -/
theorem spec_worked_example_price :
    validatePrice (Except.ok (some ⟨100, 0, ⟨1, 1⟩⟩)) (123456/1000) =
      ⟨true, "Valid", 1234/10⟩ := by
  norm_num [validatePrice, snapDown, truncQ]

/-- Order side enumeration (`OrderSide`). -/
inductive OrderSide where
  | BUY
  | SELL
deriving Repr, DecidableEq

/-- The `.value` attribute of an `OrderSide` member. -/
def OrderSide.value : OrderSide → String
  | .BUY => "BUY"
  | .SELL => "SELL"

/-- Outcome of inspecting a symbol's metadata for its two numeric filters.
Each component can raise (`Except.error`), be absent (`Except.ok none`) or be
present. -/
structure FilterInspect where
  lot : Except String (Option LotFilter)
  priceF : Except String (Option PriceFilter)

/-- The parameter set a builder hands to `client.futures_create_order`.
Optional fields are keys that may be absent from the `params` dict. -/
structure OrderParams where
  symbol : String
  side : String
  otype : String
  quantity : ℚ
  price : Option ℚ
  stopPrice : Option ℚ
  timeInForce : Option String
  reduceOnly : Bool
deriving Repr, DecidableEq

/-- `BasicBot.place_market_order`, up to the parameter set submitted to the
exchange client.  A failed validation raises `ValueError(msg)`
(`Except.error`). -/
def place_market_order (fi : FilterInspect) (symbol : String) (side : OrderSide)
    (quantity : ℚ) (reduce_only : Bool) : Except String OrderParams :=
  let vq := validateQuantity fi.lot quantity
  if !vq.ok then Except.error vq.message else
  Except.ok ⟨symbol, side.value, "MARKET", vq.adjustedValue, none, none, none, reduce_only⟩

/-- `BasicBot.place_limit_order`. -/
def place_limit_order (fi : FilterInspect) (symbol : String) (side : OrderSide)
    (quantity : ℚ) (price : ℚ) (time_in_force : String) (reduce_only : Bool) :
    Except String OrderParams :=
  let vq := validateQuantity fi.lot quantity
  if !vq.ok then Except.error vq.message else
  let vp := validatePrice fi.priceF price
  if !vp.ok then Except.error vp.message else
  Except.ok ⟨symbol, side.value, "LIMIT", vq.adjustedValue, some vp.adjustedValue,
    none, some time_in_force, reduce_only⟩

/-- `BasicBot.place_stop_limit_order`. -/
def place_stop_limit_order (fi : FilterInspect) (symbol : String) (side : OrderSide)
    (quantity : ℚ) (price : ℚ) (stop_price : ℚ) (time_in_force : String)
    (reduce_only : Bool) : Except String OrderParams :=
  let vq := validateQuantity fi.lot quantity
  if !vq.ok then Except.error vq.message else
  let vp := validatePrice fi.priceF price
  if !vp.ok then Except.error vp.message else
  let vs := validatePrice fi.priceF stop_price
  if !vs.ok then Except.error vs.message else
  Except.ok ⟨symbol, side.value, "STOP", vq.adjustedValue, some vp.adjustedValue,
    some vs.adjustedValue, some time_in_force, reduce_only⟩

/-- `BasicBot.place_stop_market_order`. -/
def place_stop_market_order (fi : FilterInspect) (symbol : String) (side : OrderSide)
    (quantity : ℚ) (stop_price : ℚ) (reduce_only : Bool) : Except String OrderParams :=
  let vq := validateQuantity fi.lot quantity
  if !vq.ok then Except.error vq.message else
  let vs := validatePrice fi.priceF stop_price
  if !vs.ok then Except.error vs.message else
  Except.ok ⟨symbol, side.value, "STOP_MARKET", vq.adjustedValue, none,
    some vs.adjustedValue, none, reduce_only⟩

/-- `BasicBot.place_take_profit_order`.  `price=None` is the default; the code
guards the limit branch with Python truthiness (`if price:`), so `price = 0`
also selects the market branch. -/
def place_take_profit_order (fi : FilterInspect) (symbol : String) (side : OrderSide)
    (quantity : ℚ) (stop_price : ℚ) (price : Option ℚ) (reduce_only : Bool) :
    Except String OrderParams :=
  let vq := validateQuantity fi.lot quantity
  if !vq.ok then Except.error vq.message else
  let vs := validatePrice fi.priceF stop_price
  if !vs.ok then Except.error vs.message else
  match price with
  | some p =>
    if p ≠ 0 then
      let vp := validatePrice fi.priceF p
      if !vp.ok then Except.error vp.message else
      Except.ok ⟨symbol, side.value, "TAKE_PROFIT", vq.adjustedValue,
        some vp.adjustedValue, some vs.adjustedValue, some "GTC", reduce_only⟩
    else
      Except.ok ⟨symbol, side.value, "TAKE_PROFIT_MARKET", vq.adjustedValue, none,
        some vs.adjustedValue, none, reduce_only⟩
  | none =>
    Except.ok ⟨symbol, side.value, "TAKE_PROFIT_MARKET", vq.adjustedValue, none,
      some vs.adjustedValue, none, reduce_only⟩

/-- `BasicBot.set_leverage`.  `remote` is the exchange-client collaborator
(`futures_change_leverage`); the local range check runs before it. -/
def set_leverage (remote : String → ℤ → Except String Unit) (symbol : String)
    (leverage : ℤ) : Except String Unit :=
  if leverage < 1 ∨ leverage > 125 then
    Except.error "Leverage must be between 1 and 125"
  else
    remote symbol leverage

/-- A raw exchange order record (`order: Dict[str, Any]`): each key may be
absent, numeric fields hold the decimal value the record carries. -/
structure RawOrder where
  orderId : Option ℤ
  clientOrderId : Option String
  symbol : Option String
  side : Option String
  otype : Option String
  status : Option String
  price : Option ℚ
  origQty : Option ℚ
  executedQty : Option ℚ
  avgPrice : Option ℚ
  stopPrice : Option ℚ
  timeInForce : Option String
  reduceOnly : Option Bool
  closePosition : Option Bool
  workingType : Option String
  updateTime : Option ℤ
deriving Repr, DecidableEq

/-- The caller-facing order shape returned by `_format_order_response`. -/
structure OrderResult where
  order_id : Option ℤ
  client_order_id : Option String
  symbol : Option String
  side : Option String
  otype : Option String
  status : Option String
  price : ℚ
  quantity : ℚ
  executed_qty : ℚ
  avg_price : ℚ
  stop_price : Option ℚ
  time_in_force : Option String
  reduce_only : Bool
  close_position : Bool
  working_type : Option String
  update_time : Option ℤ
deriving Repr, DecidableEq

/-- `BasicBot._format_order_response`.  `float(order.get(k, 0))` is `getD 0`;
`float(order.get("stopPrice", 0)) if order.get("stopPrice") else None` maps an
absent or falsy (zero) `stopPrice` to `none`. -/
def format_order_response (order : RawOrder) : OrderResult :=
  { order_id := order.orderId
    client_order_id := order.clientOrderId
    symbol := order.symbol
    side := order.side
    otype := order.otype
    status := order.status
    price := order.price.getD 0
    quantity := order.origQty.getD 0
    executed_qty := order.executedQty.getD 0
    avg_price := order.avgPrice.getD 0
    stop_price := match order.stopPrice with
      | some s => if s ≠ 0 then some s else none
      | none => none
    time_in_force := order.timeInForce
    reduce_only := order.reduceOnly.getD false
    close_position := order.closePosition.getD false
    working_type := order.workingType
    update_time := order.updateTime }

/-- A raw position record from `futures_position_information`, with its numeric
string fields already parsed to the values `float` / `int` yield on them. -/
structure RawPosition where
  symbol : String
  positionAmt : ℚ
  entryPrice : ℚ
  markPrice : ℚ
  unRealizedProfit : ℚ
  liquidationPrice : ℚ
  leverage : ℤ
  marginType : String
  positionSide : String
deriving Repr, DecidableEq

/-- The per-position dictionary built inside `get_positions`. -/
structure Position where
  symbol : String
  position_amount : ℚ
  entry_price : ℚ
  mark_price : ℚ
  unrealized_pnl : ℚ
  liquidation_price : ℚ
  leverage : ℤ
  margin_type : String
  position_side : String
deriving Repr, DecidableEq

/-- The record mapping applied to each kept position in `get_positions`. -/
def toPosition (p : RawPosition) : Position :=
  ⟨p.symbol, p.positionAmt, p.entryPrice, p.markPrice, p.unRealizedProfit,
    p.liquidationPrice, p.leverage, p.marginType, p.positionSide⟩

/-- `BasicBot.get_positions`, given the raw records the collaborator returns.
`if symbol:` is Python truthiness, so `none` and the empty string both skip the
symbol filter; then only positions with nonzero `positionAmt` are kept. -/
def get_positions (raws : List RawPosition) (symbol : Option String) : List Position :=
  let positions : List RawPosition :=
    match symbol with
    | some s => if s ≠ "" then raws.filter (fun p => p.symbol == s) else raws
    | none => raws
  (positions.filter (fun p => p.positionAmt != 0)).map toPosition

/-- C6: `set_leverage` fails with the range error for every leverage outside
`[1,125]` — for every collaborator, so before and independent of any remote
call — and for leverage inside the range it passes local validation and
succeeds whenever the collaborator does. -/
theorem set_leverage_range_check :
    (∀ (remote : String → ℤ → Except String Unit) (symbol : String) (l : ℤ),
      (l < 1 ∨ 125 < l) →
      set_leverage remote symbol l = Except.error "Leverage must be between 1 and 125") ∧
    (∀ (remote : String → ℤ → Except String Unit) (symbol : String),
      (∀ s i, remote s i = Except.ok ()) →
      set_leverage remote symbol 1 = Except.ok () ∧
      set_leverage remote symbol 125 = Except.ok ()) := by
  constructor
  · intro remote symbol l hl
    unfold set_leverage
    rw [if_pos hl]
  · intro remote symbol hcoop
    constructor
    · unfold set_leverage
      rw [if_neg (by omega)]
      exact hcoop symbol 1
    · unfold set_leverage
      rw [if_neg (by omega)]
      exact hcoop symbol 125

/-- Witness for C6: with an always-succeeding collaborator, leverage 0 and 126
are rejected locally while 1 and 125 succeed. -/
theorem set_leverage_range_check_witness :
    set_leverage (fun _ _ => Except.ok ()) "BTCUSDT" 0 =
      Except.error "Leverage must be between 1 and 125" ∧
    set_leverage (fun _ _ => Except.ok ()) "BTCUSDT" 126 =
      Except.error "Leverage must be between 1 and 125" ∧
    set_leverage (fun _ _ => Except.ok ()) "BTCUSDT" 1 = Except.ok () ∧
    set_leverage (fun _ _ => Except.ok ()) "BTCUSDT" 125 = Except.ok () := by
  refine ⟨?_, ?_, ?_, ?_⟩
  · exact set_leverage_range_check.1 _ "BTCUSDT" 0 (by omega)
  · exact set_leverage_range_check.1 _ "BTCUSDT" 126 (by omega)
  · exact (set_leverage_range_check.2 _ "BTCUSDT" (fun _ _ => rfl)).1
  · exact (set_leverage_range_check.2 _ "BTCUSDT" (fun _ _ => rfl)).2

/-- C7: when the symbol metadata lacks the matching filter type, and when an
unexpected error is raised during filter inspection, both normalizers return
success with the raw value passed through unchanged and an explanatory
message. -/
theorem validate_skip_paths :
    (∀ (msg : String) (q : ℚ),
      validateQuantity (Except.error msg) q = ⟨true, "Validation skipped", q⟩) ∧
    (∀ q : ℚ,
      validateQuantity (Except.ok none) q = ⟨true, "No LOT_SIZE filter found", q⟩) ∧
    (∀ (msg : String) (p : ℚ),
      validatePrice (Except.error msg) p = ⟨true, "Validation skipped", p⟩) ∧
    (∀ p : ℚ,
      validatePrice (Except.ok none) p = ⟨true, "No PRICE_FILTER found", p⟩) :=
  ⟨fun _ _ => rfl, fun _ => rfl, fun _ _ => rfl, fun _ => rfl⟩

/-- C8: the response formatter is a pure function; missing numeric fields
default to `0`, and a `stopPrice` that is `0` or absent is represented as
`none`, never as the number `0`. -/
theorem format_order_response_defaults :
    ∀ order : RawOrder,
      (order.price = none → (format_order_response order).price = 0) ∧
      (order.origQty = none → (format_order_response order).quantity = 0) ∧
      (order.executedQty = none → (format_order_response order).executed_qty = 0) ∧
      (order.avgPrice = none → (format_order_response order).avg_price = 0) ∧
      ((order.stopPrice = none ∨ order.stopPrice = some 0) →
        (format_order_response order).stop_price = none) ∧
      (format_order_response order).stop_price ≠ some (0 : ℚ) := by
  intro order
  refine ⟨fun h => by simp [format_order_response, h],
    fun h => by simp [format_order_response, h],
    fun h => by simp [format_order_response, h],
    fun h => by simp [format_order_response, h],
    ?_, ?_⟩
  · rintro (h | h) <;> simp [format_order_response, h]
  · cases hs : order.stopPrice with
    | none => simp [format_order_response, hs]
    | some s =>
      by_cases h0 : s = 0
      · simp [format_order_response, hs, h0]
      · simp [format_order_response, hs, h0]

/-- Witness for C8: the all-absent raw record formats with numeric fields `0`
and no stop price. -/
theorem format_order_response_defaults_witness :
    (format_order_response ⟨none, none, none, none, none, none, none, none,
      none, none, none, none, none, none, none, none⟩).price = 0 ∧
    (format_order_response ⟨none, none, none, none, none, none, none, none,
      none, none, none, none, none, none, none, none⟩).stop_price = none := by
  refine ⟨(format_order_response_defaults _).1 rfl, ?_⟩
  exact (format_order_response_defaults ⟨none, none, none, none, none, none, none,
    none, none, none, none, none, none, none, none, none⟩).2.2.2.2.1 (Or.inl rfl)

/-- C9: the active-positions list contains exactly the raw records with
nonzero `positionAmt`; in particular an amount of `0` is excluded and `-0.5`
is included with `position_amount = -0.5`. -/
theorem get_positions_nonzero_filter :
    (∀ (raws : List RawPosition) (p : Position),
      p ∈ get_positions raws none ↔
        ∃ raw, raw ∈ raws ∧ raw.positionAmt ≠ 0 ∧ toPosition raw = p) ∧
    (get_positions
        [⟨"BTCUSDT", 0, 0, 0, 0, 0, 20, "cross", "BOTH"⟩,
         ⟨"BTCUSDT", -(1/2), 100, 100, 0, 0, 20, "cross", "BOTH"⟩] none =
      [toPosition ⟨"BTCUSDT", -(1/2), 100, 100, 0, 0, 20, "cross", "BOTH"⟩]) ∧
    (toPosition ⟨"BTCUSDT", -(1/2), 100, 100, 0, 0, 20, "cross", "BOTH"⟩).position_amount
      = -(1/2) := by
  refine ⟨?_, ?_, rfl⟩
  · intro raws p
    simp only [get_positions, List.mem_map, List.mem_filter, bne_iff_ne, ne_eq]
    constructor
    · rintro ⟨raw, ⟨hmem, hne⟩, heq⟩
      exact ⟨raw, hmem, hne, heq⟩
    · rintro ⟨raw, hmem, hne, heq⟩
      exact ⟨raw, ⟨hmem, hne⟩, heq⟩
  · norm_num [get_positions]

/-- C10: supplying a take-profit limit price equal to `0` is treated exactly
as omitting it — the build is the very same function value — and any
successful build then carries type `TAKE_PROFIT_MARKET` with no price and no
`timeInForce` field. -/
theorem take_profit_zero_price_as_omitted :
    (∀ (fi : FilterInspect) (symbol : String) (side : OrderSide)
        (quantity stop_price : ℚ) (reduce_only : Bool),
      place_take_profit_order fi symbol side quantity stop_price (some 0) reduce_only =
        place_take_profit_order fi symbol side quantity stop_price none reduce_only) ∧
    (∀ (fi : FilterInspect) (symbol : String) (side : OrderSide)
        (quantity stop_price : ℚ) (reduce_only : Bool) (params : OrderParams),
      place_take_profit_order fi symbol side quantity stop_price (some 0) reduce_only =
        Except.ok params →
      params.otype = "TAKE_PROFIT_MARKET" ∧ params.price = none ∧
        params.timeInForce = none) := by
  constructor
  · intro fi symbol side quantity stop_price reduce_only
    simp [place_take_profit_order]
  · intro fi symbol side quantity stop_price reduce_only params h
    simp only [place_take_profit_order] at h
    split at h
    · exact absurd h (by simp)
    · split at h
      · exact absurd h (by simp)
      · injection h with h2
        subst h2
        exact ⟨rfl, rfl, rfl⟩

/-- Witness for C10: with no filters present, a zero supplied price yields the
market take-profit parameter set, whose type/price/timeInForce fields satisfy
the conclusion. -/
theorem take_profit_zero_price_as_omitted_witness :
    place_take_profit_order ⟨Except.ok none, Except.ok none⟩ "BTCUSDT"
        OrderSide.SELL 1 100 (some 0) true =
      Except.ok ⟨"BTCUSDT", "SELL", "TAKE_PROFIT_MARKET", 1, none, some 100, none, true⟩ ∧
    ((⟨"BTCUSDT", "SELL", "TAKE_PROFIT_MARKET", 1, none, some 100, none, true⟩ :
        OrderParams).otype = "TAKE_PROFIT_MARKET" ∧
      (⟨"BTCUSDT", "SELL", "TAKE_PROFIT_MARKET", 1, none, some 100, none, true⟩ :
        OrderParams).price = none ∧
      (⟨"BTCUSDT", "SELL", "TAKE_PROFIT_MARKET", 1, none, some 100, none, true⟩ :
        OrderParams).timeInForce = none) := by
  have h : place_take_profit_order ⟨Except.ok none, Except.ok none⟩ "BTCUSDT"
      OrderSide.SELL 1 100 (some 0) true =
      Except.ok ⟨"BTCUSDT", "SELL", "TAKE_PROFIT_MARKET", 1, none, some 100, none, true⟩ := by
    norm_num [place_take_profit_order, validateQuantity, validatePrice, OrderSide.value]
  exact ⟨h, take_profit_zero_price_as_omitted.2 _ _ _ _ _ _ _ h⟩

/-- Counterexample to C5 as stated: the limit price `0` IS supplied, yet the
built request has type `TAKE_PROFIT_MARKET` (not `TAKE_PROFIT`) and carries no
price and no `timeInForce` field, because the builder tests the price with
Python truthiness. -/
theorem take_profit_supplied_zero_not_limit :
    place_take_profit_order ⟨Except.ok none, Except.ok none⟩ "BTCUSDT"
        OrderSide.BUY 2 50 (some 0) true =
      Except.ok ⟨"BTCUSDT", "BUY", "TAKE_PROFIT_MARKET", 2, none, some 50, none, true⟩ ∧
    ("TAKE_PROFIT_MARKET" : String) ≠ "TAKE_PROFIT" := by
  constructor
  · norm_num [place_take_profit_order, validateQuantity, validatePrice, OrderSide.value]
  · decide

/-- C5 (amended): supplying a NONZERO limit price yields type `TAKE_PROFIT`
with `timeInForce=GTC` and the validated price; omitting the price (or, per
C10, supplying `0`) yields `TAKE_PROFIT_MARKET` with no price and no
`timeInForce` field. -/
theorem take_profit_variant_selection :
    (∀ (fi : FilterInspect) (symbol : String) (side : OrderSide)
        (quantity stop_price p : ℚ) (reduce_only : Bool) (params : OrderParams),
      p ≠ 0 →
      place_take_profit_order fi symbol side quantity stop_price (some p) reduce_only =
        Except.ok params →
      params.otype = "TAKE_PROFIT" ∧ params.timeInForce = some "GTC" ∧
        params.price = some (validatePrice fi.priceF p).adjustedValue ∧
        (validatePrice fi.priceF p).ok = true) ∧
    (∀ (fi : FilterInspect) (symbol : String) (side : OrderSide)
        (quantity stop_price : ℚ) (reduce_only : Bool) (params : OrderParams),
      place_take_profit_order fi symbol side quantity stop_price none reduce_only =
        Except.ok params →
      params.otype = "TAKE_PROFIT_MARKET" ∧ params.price = none ∧
        params.timeInForce = none) := by
  constructor
  · intro fi symbol side quantity stop_price p reduce_only params hp h
    simp only [place_take_profit_order] at h
    rw [if_pos hp] at h
    split at h
    · exact absurd h (by simp)
    · split at h
      · exact absurd h (by simp)
      · split at h
        · exact absurd h (by simp)
        · next hc =>
          injection h with h2
          subst h2
          refine ⟨rfl, rfl, rfl, ?_⟩
          simpa using hc
  · intro fi symbol side quantity stop_price reduce_only params h
    simp only [place_take_profit_order] at h
    split at h
    · exact absurd h (by simp)
    · split at h
      · exact absurd h (by simp)
      · injection h with h2
        subst h2
        exact ⟨rfl, rfl, rfl⟩

/-- Witness for C5 (amended): with no filters present, a nonzero supplied
price builds the limit take-profit variant and an omitted price builds the
market variant. -/
theorem take_profit_variant_selection_witness :
    ((⟨"BTCUSDT", "SELL", "TAKE_PROFIT", 1, some 105, some 100, some "GTC", true⟩ :
        OrderParams).otype = "TAKE_PROFIT" ∧
      (⟨"BTCUSDT", "SELL", "TAKE_PROFIT", 1, some 105, some 100, some "GTC", true⟩ :
        OrderParams).timeInForce = some "GTC" ∧
      (⟨"BTCUSDT", "SELL", "TAKE_PROFIT", 1, some 105, some 100, some "GTC", true⟩ :
        OrderParams).price =
          some (validatePrice (Except.ok none) 105).adjustedValue ∧
      (validatePrice (Except.ok none) 105).ok = true) ∧
    ((⟨"BTCUSDT", "SELL", "TAKE_PROFIT_MARKET", 1, none, some 100, none, true⟩ :
        OrderParams).otype = "TAKE_PROFIT_MARKET" ∧
      (⟨"BTCUSDT", "SELL", "TAKE_PROFIT_MARKET", 1, none, some 100, none, true⟩ :
        OrderParams).price = none ∧
      (⟨"BTCUSDT", "SELL", "TAKE_PROFIT_MARKET", 1, none, some 100, none, true⟩ :
        OrderParams).timeInForce = none) := by
  constructor
  · refine take_profit_variant_selection.1 ⟨Except.ok none, Except.ok none⟩ "BTCUSDT"
      OrderSide.SELL 1 100 105 true
      ⟨"BTCUSDT", "SELL", "TAKE_PROFIT", 1, some 105, some 100, some "GTC", true⟩
      (by norm_num) ?_
    norm_num [place_take_profit_order, validateQuantity, validatePrice, OrderSide.value]
  · refine take_profit_variant_selection.2 ⟨Except.ok none, Except.ok none⟩ "BTCUSDT"
      OrderSide.SELL 1 100 true
      ⟨"BTCUSDT", "SELL", "TAKE_PROFIT_MARKET", 1, none, some 100, none, true⟩ ?_
    norm_num [place_take_profit_order, validateQuantity, validatePrice, OrderSide.value]

/-- C3: a value below the minimum fails citing the minimum with the raw value
unchanged; a value above a positive maximum (for a well-formed filter,
`min ≤ max`) fails citing the maximum with the raw value unchanged; and for
price validation a zero maximum never triggers an upper-bound failure. -/
theorem validate_bounds_failures :
    (∀ (f : LotFilter) (q : ℚ), q < f.minQty →
      validateQuantity (Except.ok (some f)) q =
        ⟨false, "Quantity " ++ toString q ++ " below minimum " ++ toString f.minQty, q⟩) ∧
    (∀ (f : LotFilter) (q : ℚ), f.minQty ≤ f.maxQty → 0 < f.maxQty → f.maxQty < q →
      validateQuantity (Except.ok (some f)) q =
        ⟨false, "Quantity " ++ toString q ++ " above maximum " ++ toString f.maxQty, q⟩) ∧
    (∀ (f : PriceFilter) (p : ℚ), p < f.minPrice →
      validatePrice (Except.ok (some f)) p =
        ⟨false, "Price " ++ toString p ++ " below minimum " ++ toString f.minPrice, p⟩) ∧
    (∀ (f : PriceFilter) (p : ℚ), f.minPrice ≤ f.maxPrice → 0 < f.maxPrice →
      f.maxPrice < p →
      validatePrice (Except.ok (some f)) p =
        ⟨false, "Price " ++ toString p ++ " above maximum " ++ toString f.maxPrice, p⟩) ∧
    (∀ (f : PriceFilter) (p : ℚ), f.maxPrice = 0 → f.minPrice ≤ p →
      validatePrice (Except.ok (some f)) p = ⟨true, "Valid", snapDown p f.tickSize.e⟩) := by
  refine ⟨?_, ?_, ?_, ?_, ?_⟩
  · intro f q h
    simp only [validateQuantity]
    rw [if_pos h]
  · intro f q hwf hpos h
    simp only [validateQuantity]
    rw [if_neg (not_lt.2 (by linarith)), if_pos h]
  · intro f p h
    simp only [validatePrice]
    rw [if_pos h]
  · intro f p hwf hpos h
    simp only [validatePrice]
    rw [if_neg (not_lt.2 (by linarith)), if_pos ⟨hpos, h⟩]
  · intro f p hmax h
    simp only [validatePrice]
    rw [if_neg (not_lt.2 h), if_neg (by rw [hmax]; simp)]

/-- Witness for C3: concrete below-minimum, above-maximum and zero-maximum
instances of each bound check. -/
theorem validate_bounds_failures_witness :
    validateQuantity (Except.ok (some ⟨1, 1000, ⟨1, 3⟩⟩)) (1/2) =
      ⟨false, "Quantity " ++ toString ((1:ℚ)/2) ++ " below minimum " ++ toString (1:ℚ),
        1/2⟩ ∧
    validateQuantity (Except.ok (some ⟨1, 1000, ⟨1, 3⟩⟩)) 2000 =
      ⟨false, "Quantity " ++ toString (2000:ℚ) ++ " above maximum " ++ toString (1000:ℚ),
        2000⟩ ∧
    validatePrice (Except.ok (some ⟨100, 500000, ⟨1, 1⟩⟩)) 50 =
      ⟨false, "Price " ++ toString (50:ℚ) ++ " below minimum " ++ toString (100:ℚ), 50⟩ ∧
    validatePrice (Except.ok (some ⟨100, 500000, ⟨1, 1⟩⟩)) 600000 =
      ⟨false, "Price " ++ toString (600000:ℚ) ++ " above maximum " ++
        toString (500000:ℚ), 600000⟩ ∧
    validatePrice (Except.ok (some ⟨100, 0, ⟨1, 1⟩⟩)) 600000 =
      ⟨true, "Valid", snapDown 600000 1⟩ := by
  refine ⟨?_, ?_, ?_, ?_, ?_⟩
  · exact validate_bounds_failures.1 ⟨1, 1000, ⟨1, 3⟩⟩ (1/2) (by norm_num)
  · exact validate_bounds_failures.2.1 ⟨1, 1000, ⟨1, 3⟩⟩ 2000 (by norm_num) (by norm_num)
      (by norm_num)
  · exact validate_bounds_failures.2.2.1 ⟨100, 500000, ⟨1, 1⟩⟩ 50 (by norm_num)
  · exact validate_bounds_failures.2.2.2.1 ⟨100, 500000, ⟨1, 1⟩⟩ 600000 (by norm_num)
      (by norm_num) (by norm_num)
  · exact validate_bounds_failures.2.2.2.2 ⟨100, 0, ⟨1, 1⟩⟩ 600000 rfl (by norm_num)

/-- C4: normalizing an in-bounds value that is already a multiple of the step
(resp. tick) returns `ok=true` and that same value unchanged. -/
theorem validate_idempotent_on_aligned :
    (∀ (f : LotFilter) (q : ℚ) (k : ℤ), q = (k : ℚ) * f.stepSize.val →
      f.minQty ≤ q → q ≤ f.maxQty →
      validateQuantity (Except.ok (some f)) q = ⟨true, "Valid", q⟩) ∧
    (∀ (f : PriceFilter) (p : ℚ) (k : ℤ), p = (k : ℚ) * f.tickSize.val →
      f.minPrice ≤ p → (0 < f.maxPrice → p ≤ f.maxPrice) →
      validatePrice (Except.ok (some f)) p = ⟨true, "Valid", p⟩) := by
  constructor
  · intro f q k hk hmin hmax
    simp only [validateQuantity]
    rw [if_neg (not_lt.2 hmin), if_neg (not_lt.2 hmax)]
    have hfix : snapDown q f.stepSize.e = q := by
      refine snapDown_fixed q f.stepSize.e (k * f.stepSize.m) ?_
      rw [hk]
      unfold DecNum.val
      push_cast
      have h10 : (10 : ℚ) ^ f.stepSize.e ≠ 0 := by positivity
      field_simp
    rw [hfix]
  · intro f p k hk hmin hmax
    simp only [validatePrice]
    rw [if_neg (not_lt.2 hmin), if_neg (by rintro ⟨h1, h2⟩; exact absurd (hmax h1) (not_le.2 h2))]
    have hfix : snapDown p f.tickSize.e = p := by
      refine snapDown_fixed p f.tickSize.e (k * f.tickSize.m) ?_
      rw [hk]
      unfold DecNum.val
      push_cast
      have h10 : (10 : ℚ) ^ f.tickSize.e ≠ 0 := by positivity
      field_simp
    rw [hfix]

/-- Witness for C4: quantity `0.01 = 2 × 0.005` with step `0.005` and price
`123.4 = 1234 × 0.1` with tick `0.1` both pass through unchanged. -/
theorem validate_idempotent_on_aligned_witness :
    validateQuantity (Except.ok (some ⟨1/1000, 1000, ⟨5, 3⟩⟩)) (1/100) =
      ⟨true, "Valid", 1/100⟩ ∧
    validatePrice (Except.ok (some ⟨100, 0, ⟨1, 1⟩⟩)) (1234/10) =
      ⟨true, "Valid", 1234/10⟩ := by
  constructor
  · exact validate_idempotent_on_aligned.1 ⟨1/1000, 1000, ⟨5, 3⟩⟩ (1/100) 2
      (by norm_num [DecNum.val]) (by norm_num) (by norm_num)
  · exact validate_idempotent_on_aligned.2 ⟨100, 0, ⟨1, 1⟩⟩ (1234/10) 1234
      (by norm_num [DecNum.val]) (by norm_num) (by norm_num)

/-- Counterexample to C1 as stated: with the valid filter
`min=0, max=1000, step=0.005` and the in-bounds value `0.007`, normalization
returns `ok=true` but the adjusted value `0.007` is NOT a multiple of the
step: the code truncates at the step's decimal exponent, not to the step
grid. -/
theorem snap_not_step_multiple_cex :
    0 < (⟨5, 3⟩ : DecNum).val ∧
    (0 : ℚ) ≤ 7/1000 ∧ (7 : ℚ)/1000 ≤ 1000 ∧
    validateQuantity (Except.ok (some ⟨0, 1000, ⟨5, 3⟩⟩)) (7/1000) =
      ⟨true, "Valid", 7/1000⟩ ∧
    ¬ ∃ k : ℤ, (7 : ℚ)/1000 = (k : ℚ) * (⟨5, 3⟩ : DecNum).val := by
  refine ⟨by norm_num [DecNum.val], by norm_num, by norm_num, ?_, ?_⟩
  · norm_num [validateQuantity, snapDown, truncQ]
  · rintro ⟨k, hk⟩
    rw [DecNum.val] at hk
    have h2 : (7 : ℚ) = (k : ℚ) * 5 := by
      field_simp at hk
      linarith
    have h3 : (7 : ℤ) = k * 5 := by exact_mod_cast h2
    omega

/-- C1 (amended): for every filter whose step (resp. tick) is the unit
decimal `10^(-e)` — mantissa 1 at its own exponent, the only steps for which
quantize-at-exponent coincides with step-snapping — a nonnegative minimum and
a raw value within `[min, max]`, normalization returns `ok=true` and an
adjusted value that is a multiple of the step, is `≤` the raw value, and is
within one step below it; the snap is exact decimal truncation downward,
never nearest or up. -/
theorem validate_in_bounds_unit_step :
    (∀ (f : LotFilter) (q : ℚ), f.stepSize.m = 1 → 0 ≤ f.minQty →
      f.minQty ≤ q → q ≤ f.maxQty →
      validateQuantity (Except.ok (some f)) q =
        ⟨true, "Valid", snapDown q f.stepSize.e⟩ ∧
      (∃ k : ℤ, snapDown q f.stepSize.e = (k : ℚ) * f.stepSize.val) ∧
      snapDown q f.stepSize.e ≤ q ∧
      q - snapDown q f.stepSize.e < f.stepSize.val) ∧
    (∀ (f : PriceFilter) (p : ℚ), f.tickSize.m = 1 → 0 ≤ f.minPrice →
      f.minPrice ≤ p → (0 < f.maxPrice → p ≤ f.maxPrice) →
      validatePrice (Except.ok (some f)) p =
        ⟨true, "Valid", snapDown p f.tickSize.e⟩ ∧
      (∃ k : ℤ, snapDown p f.tickSize.e = (k : ℚ) * f.tickSize.val) ∧
      snapDown p f.tickSize.e ≤ p ∧
      p - snapDown p f.tickSize.e < f.tickSize.val) := by
  constructor
  · intro f q hm hmin0 hmin hmax
    have hq0 : 0 ≤ q := le_trans hmin0 hmin
    have hval : f.stepSize.val = 1 / 10 ^ f.stepSize.e := by
      unfold DecNum.val
      rw [hm]
      push_cast
      ring
    refine ⟨?_, ?_, snapDown_le q f.stepSize.e hq0, ?_⟩
    · simp only [validateQuantity]
      rw [if_neg (not_lt.2 hmin), if_neg (not_lt.2 hmax)]
    · obtain ⟨k, hk⟩ := snapDown_is_grid_multiple q f.stepSize.e
      exact ⟨k, by rw [hk, hval]⟩
    · rw [hval]
      exact sub_snapDown_lt q f.stepSize.e hq0
  · intro f p hm hmin0 hmin hmax
    have hp0 : 0 ≤ p := le_trans hmin0 hmin
    have hval : f.tickSize.val = 1 / 10 ^ f.tickSize.e := by
      unfold DecNum.val
      rw [hm]
      push_cast
      ring
    refine ⟨?_, ?_, snapDown_le p f.tickSize.e hp0, ?_⟩
    · simp only [validatePrice]
      rw [if_neg (not_lt.2 hmin),
        if_neg (by rintro ⟨h1, h2⟩; exact absurd (hmax h1) (not_le.2 h2))]
    · obtain ⟨k, hk⟩ := snapDown_is_grid_multiple p f.tickSize.e
      exact ⟨k, by rw [hk, hval]⟩
    · rw [hval]
      exact sub_snapDown_lt p f.tickSize.e hp0

/-- Witness for C1 (amended): the spec's own example, quantity `0.0019` with
unit step `0.001` in `[0.001, 1000]`, snaps down to a step multiple within
one step of the raw value. -/
theorem validate_in_bounds_unit_step_witness :
    validateQuantity (Except.ok (some ⟨1/1000, 1000, ⟨1, 3⟩⟩)) (19/10000) =
      ⟨true, "Valid", snapDown (19/10000) 3⟩ ∧
    (∃ k : ℤ, snapDown (19/10000 : ℚ) 3 = (k : ℚ) * (⟨1, 3⟩ : DecNum).val) ∧
    snapDown (19/10000 : ℚ) 3 ≤ 19/10000 ∧
    (19/10000 : ℚ) - snapDown (19/10000) 3 < (⟨1, 3⟩ : DecNum).val := by
  exact validate_in_bounds_unit_step.1 ⟨1/1000, 1000, ⟨1, 3⟩⟩ (19/10000) rfl
    (by norm_num) (by norm_num) (by norm_num)

/-- A quantity that left the quantity Normalizer with `ok = true`: some raw
input validates successfully to exactly this value. -/
def validatedQty (lot : Except String (Option LotFilter)) (x : ℚ) : Prop :=
  ∃ raw, (validateQuantity lot raw).ok = true ∧ (validateQuantity lot raw).adjustedValue = x

/-- A price-like value that left the price Normalizer with `ok = true`. -/
def validatedPx (pf : Except String (Option PriceFilter)) (x : ℚ) : Prop :=
  ∃ raw, (validatePrice pf raw).ok = true ∧ (validatePrice pf raw).adjustedValue = x

/-- C2: for every order variant, an `OrderRequest` that leaves its builder
carries a quantity that passed the quantity Normalizer with `ok=true`, and
every price-like field it carries (price, stop price) passed the price
Normalizer with `ok=true` — the builder never forwards an unvalidated
quantity or price field to the exchange client. -/
theorem builders_forward_only_validated :
    (∀ (fi : FilterInspect) (s : String) (sd : OrderSide) (q : ℚ) (ro : Bool)
        (params : OrderParams),
      place_market_order fi s sd q ro = Except.ok params →
      validatedQty fi.lot params.quantity ∧ params.price = none ∧
        params.stopPrice = none) ∧
    (∀ (fi : FilterInspect) (s : String) (sd : OrderSide) (q pr : ℚ)
        (tif : String) (ro : Bool) (params : OrderParams),
      place_limit_order fi s sd q pr tif ro = Except.ok params →
      validatedQty fi.lot params.quantity ∧
        (∀ x, params.price = some x → validatedPx fi.priceF x) ∧
        params.stopPrice = none) ∧
    (∀ (fi : FilterInspect) (s : String) (sd : OrderSide) (q pr sp : ℚ)
        (tif : String) (ro : Bool) (params : OrderParams),
      place_stop_limit_order fi s sd q pr sp tif ro = Except.ok params →
      validatedQty fi.lot params.quantity ∧
        (∀ x, params.price = some x → validatedPx fi.priceF x) ∧
        (∀ x, params.stopPrice = some x → validatedPx fi.priceF x)) ∧
    (∀ (fi : FilterInspect) (s : String) (sd : OrderSide) (q sp : ℚ) (ro : Bool)
        (params : OrderParams),
      place_stop_market_order fi s sd q sp ro = Except.ok params →
      validatedQty fi.lot params.quantity ∧ params.price = none ∧
        (∀ x, params.stopPrice = some x → validatedPx fi.priceF x)) ∧
    (∀ (fi : FilterInspect) (s : String) (sd : OrderSide) (q sp : ℚ)
        (pr : Option ℚ) (ro : Bool) (params : OrderParams),
      place_take_profit_order fi s sd q sp pr ro = Except.ok params →
      validatedQty fi.lot params.quantity ∧
        (∀ x, params.price = some x → validatedPx fi.priceF x) ∧
        (∀ x, params.stopPrice = some x → validatedPx fi.priceF x)) := by
  refine ⟨?_, ?_, ?_, ?_, ?_⟩
  · intro fi s sd q ro params h
    simp only [place_market_order] at h
    split at h
    · exact absurd h (by simp)
    · next hc1 =>
      injection h with h2
      subst h2
      exact ⟨⟨q, by simpa using hc1, rfl⟩, rfl, rfl⟩
  · intro fi s sd q pr tif ro params h
    simp only [place_limit_order] at h
    split at h
    · exact absurd h (by simp)
    · next hc1 =>
      split at h
      · exact absurd h (by simp)
      · next hc2 =>
        injection h with h2
        subst h2
        refine ⟨⟨q, by simpa using hc1, rfl⟩, ?_, rfl⟩
        intro x hx
        injection hx with hx2
        exact ⟨pr, by simpa using hc2, hx2⟩
  · intro fi s sd q pr sp tif ro params h
    simp only [place_stop_limit_order] at h
    split at h
    · exact absurd h (by simp)
    · next hc1 =>
      split at h
      · exact absurd h (by simp)
      · next hc2 =>
        split at h
        · exact absurd h (by simp)
        · next hc3 =>
          injection h with h2
          subst h2
          refine ⟨⟨q, by simpa using hc1, rfl⟩, ?_, ?_⟩
          · intro x hx
            injection hx with hx2
            exact ⟨pr, by simpa using hc2, hx2⟩
          · intro x hx
            injection hx with hx2
            exact ⟨sp, by simpa using hc3, hx2⟩
  · intro fi s sd q sp ro params h
    simp only [place_stop_market_order] at h
    split at h
    · exact absurd h (by simp)
    · next hc1 =>
      split at h
      · exact absurd h (by simp)
      · next hc2 =>
        injection h with h2
        subst h2
        refine ⟨⟨q, by simpa using hc1, rfl⟩, rfl, ?_⟩
        intro x hx
        injection hx with hx2
        exact ⟨sp, by simpa using hc2, hx2⟩
  · intro fi s sd q sp pr ro params h
    cases pr with
    | none =>
      simp only [place_take_profit_order] at h
      cases hb1 : (validateQuantity fi.lot q).ok with
      | false => rw [hb1] at h; simp at h
      | true =>
        rw [hb1] at h
        simp only [Bool.not_true, Bool.false_eq_true, if_false] at h
        cases hb2 : (validatePrice fi.priceF sp).ok with
        | false => rw [hb2] at h; simp at h
        | true =>
          rw [hb2] at h
          simp only [Bool.not_true, Bool.false_eq_true, if_false] at h
          injection h with h2
          subst h2
          exact ⟨⟨q, hb1, rfl⟩, fun x hx => Option.noConfusion hx,
            fun x hx => by injection hx with hx2; exact ⟨sp, hb2, hx2⟩⟩
    | some p =>
      by_cases hp : p = 0
      · subst hp
        simp only [place_take_profit_order] at h
        rw [if_neg (show ¬((0 : ℚ) ≠ 0) by norm_num)] at h
        cases hb1 : (validateQuantity fi.lot q).ok with
        | false => rw [hb1] at h; simp at h
        | true =>
          rw [hb1] at h
          simp only [Bool.not_true, Bool.false_eq_true, if_false] at h
          cases hb2 : (validatePrice fi.priceF sp).ok with
          | false => rw [hb2] at h; simp at h
          | true =>
            rw [hb2] at h
            simp only [Bool.not_true, Bool.false_eq_true, if_false] at h
            injection h with h2
            subst h2
            exact ⟨⟨q, hb1, rfl⟩, fun x hx => Option.noConfusion hx,
              fun x hx => by injection hx with hx2; exact ⟨sp, hb2, hx2⟩⟩
      · simp only [place_take_profit_order] at h
        rw [if_pos hp] at h
        cases hb1 : (validateQuantity fi.lot q).ok with
        | false => rw [hb1] at h; simp at h
        | true =>
          rw [hb1] at h
          simp only [Bool.not_true, Bool.false_eq_true, if_false] at h
          cases hb2 : (validatePrice fi.priceF sp).ok with
          | false => rw [hb2] at h; simp at h
          | true =>
            rw [hb2] at h
            simp only [Bool.not_true, Bool.false_eq_true, if_false] at h
            cases hb3 : (validatePrice fi.priceF p).ok with
            | false => rw [hb3] at h; simp at h
            | true =>
              rw [hb3] at h
              simp only [Bool.not_true, Bool.false_eq_true, if_false] at h
              injection h with h2
              subst h2
              exact ⟨⟨q, hb1, rfl⟩,
                fun x hx => by injection hx with hx2; exact ⟨p, hb3, hx2⟩,
                fun x hx => by injection hx with hx2; exact ⟨sp, hb2, hx2⟩⟩

/-- Witness for C2: with no filters present, a market build succeeds and its
forwarded quantity indeed left the Normalizer with `ok=true`. -/
theorem builders_forward_only_validated_witness :
    validatedQty (Except.ok none) 1 ∧
    (none : Option ℚ) = none ∧ (none : Option ℚ) = none := by
  exact builders_forward_only_validated.1 ⟨Except.ok none, Except.ok none⟩ "BTCUSDT"
    OrderSide.BUY 1 false ⟨"BTCUSDT", "BUY", "MARKET", 1, none, none, none, false⟩ rfl

/-- Witness for C9: the `-0.5` position is a member of the active list built
from a concrete singleton record list. -/
theorem get_positions_nonzero_filter_witness :
    toPosition ⟨"BTCUSDT", -(1/2), 100, 100, 0, 0, 20, "cross", "BOTH"⟩ ∈
      get_positions [⟨"BTCUSDT", -(1/2), 100, 100, 0, 0, 20, "cross", "BOTH"⟩] none := by
  exact (get_positions_nonzero_filter.1 _ _).mpr
    ⟨⟨"BTCUSDT", -(1/2), 100, 100, 0, 0, 20, "cross", "BOTH"⟩, by simp, by norm_num, rfl⟩
